import Mathlib

/-!
Verification development for the cli-shop-managements core
(src/models/product.py, src/repositories/product_repository.py,
src/services/product_service.py, src/config.py).

Modelling conventions:
* Python `str` is Lean `String`;
* Python `int` is `Int` (arbitrary precision in both);
* Python `float` is modelled as `ℚ`: every Python float is a rational
  number, and `str(float)`/`float(str)` is an exact round trip (repr
  round-trips floats losslessly).  The textual codec below (`strOfRat`,
  `parseRat?`) is an integer/fraction surface form with the same
  lossless-round-trip and reject-garbage behaviour; Python's decimal
  float syntax is not reproduced character for character.
* a Python dict is an insertion-ordered association list with unique
  keys; `dictSet` is dict assignment (replace in place, else append);
* raising an exception is returning `Except.error`; the quoted-id parts
  of the Python messages are kept without the surrounding quote marks;
* the CSV file is a list of rows of cells (`List (List String)`); the
  csv module's quoting/escaping is treated as the exact bijection it
  implements; `none` at the file level means the file does not exist.
  Rows shorter or longer than the header (which `save` never produces)
  and blank-line skipping are not modelled.
* the `BaseModel` `created_at`/`updated_at` timestamps are not modelled:
  they are not persisted and no observable behaviour in the claims
  depends on them.  `date_added` is kept as an opaque string; the
  "current time" string is threaded as an explicit parameter.
-/

deriving instance DecidableEq for Except

namespace ShopModel

/-! ## Numeric text codec (model of Python str()/int()/float() on numbers) -/

/-- Little-endian base-10 digits, structurally recursive on a fuel so the
kernel can evaluate it. -/
def digitsRevGo : Nat → Nat → List Nat
  | 0, _ => []
  | fuel + 1, n => if n = 0 then [] else (n % 10) :: digitsRevGo fuel (n / 10)

/-- Little-endian base-10 digits of `n` (empty for 0). -/
def digitsRev (n : Nat) : List Nat := digitsRevGo n n

/-- Value of a little-endian digit list. -/
def valRev : List Nat → Nat
  | [] => 0
  | d :: t => d + 10 * valRev t

/-- The character for one decimal digit. -/
def digitChar10 (d : Nat) : Char := Nat.digitChar d

/-- Numeric value of a decimal digit character. -/
def charVal (c : Char) : Nat := c.toNat - 48

/-- Big-endian decimal character string of a natural number. -/
def natChars (n : Nat) : List Char := ((digitsRev n).map digitChar10).reverse

/-- Model of Python `str` on a non-negative integer. -/
def strOfNat (n : Nat) : String := if n = 0 then "0" else ⟨natChars n⟩

/-- Model of Python `str` on an integer. -/
def strOfInt (n : Int) : String :=
  if n < 0 then "-" ++ strOfNat n.natAbs else strOfNat n.natAbs

/-- Serialized form of a price: integer text when the denominator is 1,
`num/den` otherwise.  Stand-in for `str(float)`, sharing its losslessness. -/
def strOfRat (q : ℚ) : String :=
  if q.den = 1 then strOfInt q.num else strOfInt q.num ++ "/" ++ strOfNat q.den

/-- Big-endian value of a decimal character list. -/
def digitsVal (cs : List Char) : Nat := cs.foldl (fun a c => a * 10 + charVal c) 0

/-- Parse a non-empty all-digit character list. -/
def parseNatChars (cs : List Char) : Option Nat :=
  if cs ≠ [] ∧ cs.all Char.isDigit then some (digitsVal cs) else none

/-- Parse an optionally signed integer character list: model of Python
`int(str)` (surrounding whitespace and `_` digit grouping not modelled). -/
def parseIntChars (cs : List Char) : Option Int :=
  match cs with
  | [] => none
  | c :: rest =>
    if c = '-' then (parseNatChars rest).map (fun (m : Nat) => -(m : Int))
    else if c = '+' then (parseNatChars rest).map (fun (m : Nat) => (m : Int))
    else (parseNatChars cs).map (fun (m : Nat) => (m : Int))

/-- Model of Python `int(s)` for a string. -/
def parseInt? (s : String) : Option Int := parseIntChars s.data

/-- Split a character list at the first slash. -/
def breakSlash : List Char → List Char × Option (List Char)
  | [] => ([], none)
  | c :: rest =>
    if c = '/' then ([], some rest)
    else
      let p := breakSlash rest
      (c :: p.1, p.2)

/-- Parse the textual price form produced by `strOfRat`: stand-in for
Python `float(s)`, rejecting non-numeric text. -/
def parseRatChars (cs : List Char) : Option ℚ :=
  match breakSlash cs with
  | (a, none) => (parseIntChars a).map (fun (n : Int) => (n : ℚ))
  | (a, some b) =>
    match parseIntChars a, parseNatChars b with
    | some n, some d => if d = 0 then none else some (mkRat n d)
    | _, _ => none

/-- Model of `float(s)` for a price cell. -/
def parseRat? (s : String) : Option ℚ := parseRatChars s.data

/-! ## Python str.strip model -/

/-- Whitespace characters stripped by Python `str.strip()` (ASCII subset). -/
def isPySpace (c : Char) : Bool := c == ' ' || c == '\t' || c == '\n' || c == '\r'

/-- Model of Python `s.strip()`. -/
def pyStrip (s : String) : String :=
  ⟨((s.data.dropWhile isPySpace).reverse.dropWhile isPySpace).reverse⟩

/-! ## Product (src/models/product.py) -/

/-- The Product entity.  `product_id` has a getter but no setter in the
source, hence nothing below ever rewrites it after construction.
`created_at`/`updated_at` omitted (not persisted, unobservable here). -/
structure Product where
  product_id : String
  name : String
  category : String
  price : ℚ
  quantity : Int
  supplier : String
  date_added : String
deriving DecidableEq

/-- Constructor `Product.__init__` for already-numeric price/quantity
arguments (the `float`/`int` coercions are then the identity);
`dateNow` is the `datetime.now().strftime(...)` string. -/
def Product.make (product_id name category : String) (price : ℚ) (quantity : Int)
    (supplier : String) (dateNow : String) : Product :=
  { product_id, name, category, price, quantity, supplier, date_added := dateNow }

/-- Constructor called with textual price/quantity, as `load` does:
`float(price)` / `int(quantity)` can fail, nothing else can. -/
def Product.ofStrings (product_id name category priceS qtyS supplier dateNow : String) :
    Option Product :=
  match parseRat? priceS, parseInt? qtyS with
  | some price, some quantity =>
    some (Product.make product_id name category price quantity supplier dateNow)
  | _, _ => none

/-- The `name` setter. -/
def Product.setName (p : Product) (value : String) : Except String Product :=
  if value == "" || pyStrip value == "" then Except.error "Product name cannot be empty"
  else if value.length > 50 then Except.error "Product name too long (max 50 characters)"
  else Except.ok { p with name := value }

/-- The `category` setter (no validation). -/
def Product.setCategory (p : Product) (value : String) : Product :=
  { p with category := value }

/-- The `price` setter. -/
def Product.setPrice (p : Product) (value : ℚ) : Except String Product :=
  if value < 0 then Except.error "Price cannot be negative"
  else Except.ok { p with price := value }

/-- The `quantity` setter. -/
def Product.setQuantity (p : Product) (value : Int) : Except String Product :=
  if value < 0 then Except.error "Quantity cannot be negative"
  else Except.ok { p with quantity := value }

/-- The `supplier` setter (no validation). -/
def Product.setSupplier (p : Product) (value : String) : Product :=
  { p with supplier := value }

/-- `Product.validate`: collects all violations, in source order. -/
def Product.validate (p : Product) : Bool × List String :=
  let errors :=
    (if p.product_id == "" || pyStrip p.product_id == ""
      then ["Product ID cannot be empty"] else []) ++
    (if p.product_id.length > 20 then ["Product ID too long (max 20 characters)"] else []) ++
    (if p.name == "" || pyStrip p.name == "" then ["Product name cannot be empty"] else []) ++
    (if p.name.length > 50 then ["Product name too long (max 50 characters)"] else []) ++
    (if p.price < 0 then ["Price cannot be negative"] else []) ++
    (if p.quantity < 0 then ["Quantity cannot be negative"] else [])
  (errors.isEmpty, errors)

/-- `Product.get_total_value`. -/
def Product.get_total_value (p : Product) : ℚ := p.price * (p.quantity : ℚ)

/-- `Product.is_low_stock` (the source default `threshold=10` is passed
explicitly by every modelled caller). -/
def Product.is_low_stock (p : Product) (threshold : Int) : Bool :=
  p.quantity < threshold

/-- `Product.adjust_quantity`: guard first, then the normal quantity setter. -/
def Product.adjust_quantity (p : Product) (amount : Int) : Except String Product :=
  let new_quantity := p.quantity + amount
  if new_quantity < 0 then Except.error "Insufficient quantity"
  else p.setQuantity new_quantity

/-- Partial update `Product.update_from_dict`.  The second component is
the state of the (in Python: in-place mutated) entity when the call
returns, also on error: fields applied before a failing setter stay
applied. -/
structure UpdateData where
  name : Option String := none
  category : Option String := none
  price : Option ℚ := none
  quantity : Option Int := none
  supplier : Option String := none
deriving DecidableEq

/-- Model of `update_from_dict`: sequential field application with
Python truthiness tests (`if data[k]` for strings, `is not None` for
price/quantity). -/
def Product.update_from_dict (p : Product) (d : UpdateData) :
    Except String Product × Product :=
  let r1 : Except String Product :=
    match d.name with
    | some v => if v == "" then Except.ok p else p.setName v
    | none => Except.ok p
  match r1 with
  | Except.error e => (Except.error e, p)
  | Except.ok p1 =>
    let p2 :=
      match d.category with
      | some v => if v == "" then p1 else p1.setCategory v
      | none => p1
    let r3 : Except String Product :=
      match d.price with
      | some v => p2.setPrice v
      | none => Except.ok p2
    match r3 with
    | Except.error e => (Except.error e, p2)
    | Except.ok p3 =>
      let r4 : Except String Product :=
        match d.quantity with
        | some v => p3.setQuantity v
        | none => Except.ok p3
      match r4 with
      | Except.error e => (Except.error e, p3)
      | Except.ok p4 =>
        let p5 :=
          match d.supplier with
          | some v => if v == "" then p4 else p4.setSupplier v
          | none => p4
        (Except.ok p5, p5)

/-! ## Repository (src/repositories/product_repository.py) -/

/-- The in-memory store: a Python dict, i.e. an insertion-ordered map. -/
abbrev Repo := List (String × Product)

/-- Python dict assignment `m[k] = v`: replace in place if the key
exists, else append. -/
def dictSet (r : Repo) (k : String) (v : Product) : Repo :=
  if r.any (fun kv => kv.1 == k) then
    r.map (fun kv => if kv.1 == k then (kv.1, v) else kv)
  else r ++ [(k, v)]

namespace ProductRepository

/-- `get_by_id`. -/
def get_by_id (r : Repo) (id : String) : Option Product :=
  (r.find? (fun kv => kv.1 == id)).map (fun kv => kv.2)

/-- `get_all` (dict values in insertion order). -/
def get_all (r : Repo) : List Product := r.map (fun kv => kv.2)

/-- `exists`. -/
def existsId (r : Repo) (id : String) : Bool := r.any (fun kv => kv.1 == id)

/-- `count`. -/
def count (r : Repo) : Nat := r.length

/-- `get_next_id`: scan ids, keep the best integer parse (base 0),
return `max + 1` as a string.  (The `_next_id` attribute it also stores
is never read anywhere else and is not modelled.) -/
def get_next_id (r : Repo) : String :=
  let max_id : Int := r.foldl
    (fun m kv =>
      match parseInt? kv.1 with
      | some num => if num > m then num else m
      | none => m) 0
  strOfInt (max_id + 1)

/-- `add`. -/
def add (r : Repo) (p : Product) : Except String Repo :=
  if existsId r p.product_id then
    Except.error ("Product with ID " ++ p.product_id ++ " already exists")
  else
    let v := p.validate
    if v.1 then Except.ok (dictSet r p.product_id p)
    else Except.error ("Invalid product data: " ++ String.intercalate ", " v.2)

/-- `update`. -/
def update (r : Repo) (p : Product) : Except String Repo :=
  if existsId r p.product_id then
    let v := p.validate
    if v.1 then Except.ok (dictSet r p.product_id p)
    else Except.error ("Invalid product data: " ++ String.intercalate ", " v.2)
  else Except.error ("Product with ID " ++ p.product_id ++ " not found")

/-- `delete`. -/
def delete (r : Repo) (id : String) : Except String Repo :=
  if existsId r id then Except.ok (r.filter (fun kv => !(kv.1 == id)))
  else Except.error ("Product with ID " ++ id ++ " not found")

/-- `clear`. -/
def clear (_ : Repo) : Repo := []

/-- `find_low_stock`. -/
def find_low_stock (r : Repo) (threshold : Int) : List Product :=
  (get_all r).filter (fun p => p.quantity < threshold)

/-- `Config.PRODUCT_FIELDS`. -/
def PRODUCT_FIELDS : List String :=
  ["product_id", "name", "category", "price", "quantity", "supplier", "date_added"]

/-- The CSV row `DictWriter.writerow(product.to_dict())` emits, in
`PRODUCT_FIELDS` order. -/
def rowOf (p : Product) : List String :=
  [p.product_id, p.name, p.category, strOfRat p.price, strOfInt p.quantity,
   p.supplier, p.date_added]

/-- `save`: nothing at all is written for an empty collection, otherwise
a header row then one row per product, in dict order.  The output is a
function of the collection alone, i.e. any previous file content is
overwritten.  (Directory-creation failures are I/O outside the model.) -/
def save (r : Repo) : List (List String) :=
  if r.isEmpty then [] else PRODUCT_FIELDS :: (get_all r).map rowOf

/-- Lookup in the dict `DictReader` builds from one data row. -/
def rowLookup (row : List (String × String)) (k : String) : Option String :=
  (row.find? (fun kv => kv.1 == k)).map (fun kv => kv.2)

/-- `row.get(k, d)`. -/
def rowLookupD (row : List (String × String)) (k d : String) : String :=
  (rowLookup row k).getD d

/-- Turn one data row into a Product exactly as the body of the `load`
loop does: `row[...]` for the five required columns (a missing column is
a KeyError, i.e. a parse failure), `row.get` with defaults for
`supplier`/`date_added`, and the constructor's numeric coercions. -/
def parseRow (nowDate : String) (header cells : List String) : Option Product :=
  let row := header.zip cells
  match rowLookup row "product_id", rowLookup row "name", rowLookup row "category",
      rowLookup row "price", rowLookup row "quantity" with
  | some pid, some nm, some cat, some pr, some qt =>
    Product.ofStrings pid nm cat pr qt
      (rowLookupD row "supplier" "") (rowLookupD row "date_added" nowDate)
  | _, _, _, _, _ => none

/-- The `for row in reader` loop of `load`.  On the first row that fails
to parse the loop stops with the storage error, and the rows inserted so
far stay in the in-memory dict (the Python code populates
`self._products` directly). -/
def loadRows (nowDate : String) (header : List String) :
    List (List String) → Repo → Except String Unit × Repo
  | [], acc => (Except.ok (), acc)
  | cells :: rest, acc =>
    match parseRow nowDate header cells with
    | some p => loadRows nowDate header rest (dictSet acc p.product_id p)
    | none => (Except.error "Error loading data", acc)

/-- `load`: missing file is an immediate success that leaves the
in-memory dict untouched; an existing file first clears the dict, then
the first row is the `DictReader` header and the rest are data rows. -/
def load (file : Option (List (List String))) (nowDate : String) (r : Repo) :
    Except String Unit × Repo :=
  match file with
  | none => (Except.ok (), r)
  | some [] => (Except.ok (), [])
  | some (header :: rows) => loadRows nowDate header rows []

end ProductRepository

/-! ## Service (src/services/product_service.py) -/

namespace ProductService

/-- `create_product` after the entity has been constructed: repository
failures are wrapped in the business-level message. -/
def create_product (r : Repo) (p : Product) : Except String Product × Repo :=
  match ProductRepository.add r p with
  | Except.error e => (Except.error ("Failed to create product: " ++ e), r)
  | Except.ok r2 => (Except.ok p, r2)

/-- `update_product`.  The entity fetched from the repository is the
stored object itself, so every field `update_from_dict` applies is
visible in the store even when a later field fails (`dictSet r id _`
models that in-place mutation). -/
def update_product (r : Repo) (id : String) (data : UpdateData) :
    Except String Product × Repo :=
  match ProductRepository.get_by_id r id with
  | none => (Except.error ("Product with ID " ++ id ++ " not found"), r)
  | some p =>
    match p.update_from_dict data with
    | (Except.error e, pAfter) =>
      (Except.error ("Failed to update product: " ++ e), dictSet r id pAfter)
    | (Except.ok p2, _) =>
      let rAliased := dictSet r id p2
      match ProductRepository.update rAliased p2 with
      | Except.error e => (Except.error ("Failed to update product: " ++ e), rAliased)
      | Except.ok r2 => (Except.ok p2, r2)

/-- `delete_product`. -/
def delete_product (r : Repo) (id : String) : Except String Bool × Repo :=
  match ProductRepository.delete r id with
  | Except.error e => (Except.error ("Failed to delete product: " ++ e), r)
  | Except.ok r2 => (Except.ok true, r2)

/-- `adjust_stock`.  `adjust_quantity` raises before mutating, so a
failed adjustment leaves the store untouched. -/
def adjust_stock (r : Repo) (id : String) (amount : Int) :
    Except String Product × Repo :=
  match ProductRepository.get_by_id r id with
  | none => (Except.error ("Product with ID " ++ id ++ " not found"), r)
  | some p =>
    match p.adjust_quantity amount with
    | Except.error e => (Except.error ("Failed to adjust stock: " ++ e), r)
    | Except.ok p2 =>
      let rAliased := dictSet r id p2
      match ProductRepository.update rAliased p2 with
      | Except.error e => (Except.error ("Failed to adjust stock: " ++ e), rAliased)
      | Except.ok r2 => (Except.ok p2, r2)

/-- The statistics record.  `low_stock_products` is an `Option` because
the Python empty-collection branch returns a dict without that key at
all; `none` models the absent key. -/
structure Stats where
  total_products : Nat
  total_quantity : Int
  total_value : ℚ
  categories : List (String × Nat)
  low_stock_count : Nat
  low_stock_products : Option (List Product)
deriving DecidableEq

/-- One step of the category-count dict build. -/
def bumpCategory (m : List (String × Nat)) (c : String) : List (String × Nat) :=
  if m.any (fun kv => kv.1 == c) then
    m.map (fun kv => if kv.1 == c then (kv.1, kv.2 + 1) else kv)
  else m ++ [(c, 1)]

/-- `get_statistics`. -/
def get_statistics (r : Repo) : Stats :=
  let products := ProductRepository.get_all r
  if products.isEmpty then
    { total_products := 0, total_quantity := 0, total_value := 0,
      categories := [], low_stock_count := 0, low_stock_products := none }
  else
    let total_quantity := products.foldl (fun a p => a + p.quantity) 0
    let total_value := products.foldl (fun a p => a + p.get_total_value) 0
    let categories := products.foldl (fun m p => bumpCategory m p.category) []
    let low_stock := ProductRepository.find_low_stock r 10
    { total_products := products.length, total_quantity := total_quantity,
      total_value := total_value, categories := categories,
      low_stock_count := low_stock.length, low_stock_products := some low_stock }

end ProductService

def maxNumericId (r : Repo) : Int :=
  r.foldl (fun m kp => match parseInt? kp.1 with | some n => max m n | none => m) 0
/-- Count stored for key `c` in the category dict (0 when absent). -/
def countKey (m : List (String × Nat)) (c : String) : Nat :=
  ((m.find? (fun kv => kv.1 == c)).map (fun kv => kv.2)).getD 0
/-- Map keys agree with the id of the product stored under them. -/
def KeyConsistent (r : Repo) : Prop := ∀ kp ∈ r, kp.1 = kp.2.product_id

/-- Repository states reachable through the repository operations named
in the claim: the empty store, `add`, `update`, `delete`, `load`
(successful or failed, i.e. whatever state the call leaves behind) and
`clear`. -/
inductive Reachable : Repo → Prop where
  | empty : Reachable []
  | add_ok (r r2 : Repo) (p : Product) : Reachable r →
      ProductRepository.add r p = Except.ok r2 → Reachable r2
  | update_ok (r r2 : Repo) (p : Product) : Reachable r →
      ProductRepository.update r p = Except.ok r2 → Reachable r2
  | delete_ok (r r2 : Repo) (id : String) : Reachable r →
      ProductRepository.delete r id = Except.ok r2 → Reachable r2
  | load_any (r : Repo) (file : Option (List (List String))) (d : String) :
      Reachable r → Reachable (ProductRepository.load file d r).2
  | clear_any (r : Repo) : Reachable r → Reachable (ProductRepository.clear r)
/-! ## Concrete fixtures used by witnesses and counterexamples -/

/-- A representative stored product (fractional price, mid stock). -/
def wProd : Product := Product.make "1" "Widget" "Tools" (mkRat 3 2) 5 "Acme" "2024-01-01 10:20:30"

/-- A second stored product used in load witnesses. -/
def wProd2 : Product := Product.make "2" "Bolt" "Parts" (3 : ℚ) 4 "S" "2024-01-02 11:00:00"

/-- Product stored before the partial-update counterexample. -/
def c4A : Product := Product.make "1" "A" "Cat" (1 : ℚ) 1 "S" "d"

/-- The same product after the name field of the failing update was applied. -/
def c4A2 : Product := Product.make "1" "X" "Cat" (1 : ℚ) 1 "S" "d"

/-- Store holding `c4A`. -/
def c4r : Repo := [("1", c4A)]

/-- Update request with a valid name and an invalid (negative) price. -/
def c4d : UpdateData := { name := some "X", price := some (-5) }

/-- CSV file whose second data row has an unparseable quantity. -/
def cexFile : List (List String) :=
  [ProductRepository.PRODUCT_FIELDS,
   ["1", "A", "Cat", "1", "1", "S", "d"],
   ["2", "B", "Cat", "1", "abc", "", ""]]

/-- Products for the `get_next_id` scenario. -/
def nid3 : Product := Product.make "3" "N" "C" (1 : ℚ) 1 "" "d"

def nid7 : Product := Product.make "7" "N" "C" (1 : ℚ) 1 "" "d"

def nid8 : Product := Product.make "8" "N" "C" (1 : ℚ) 1 "" "d"

def nidAbc : Product := Product.make "abc" "N" "C" (1 : ℚ) 1 "" "d"

/-- Statistics example: categories A, A, B with quantities 3, 20, 1. -/
def statP1 : Product := Product.make "1" "P1" "A" (1 : ℚ) 3 "" "d"

def statP2 : Product := Product.make "2" "P2" "A" (1 : ℚ) 20 "" "d"

def statP3 : Product := Product.make "3" "P3" "B" (1 : ℚ) 1 "" "d"

def statR : Repo := [("1", statP1), ("2", statP2), ("3", statP3)]

/-- Product with quantity 5 for the adjustment example. -/
def c6p : Product := Product.make "1" "A" "C" (1 : ℚ) 5 "S" "d"

/-- Products at the low-stock boundary. -/
def c8p9 : Product := Product.make "1" "A" "C" (1 : ℚ) 9 "" "d"

def c8p10 : Product := Product.make "2" "B" "C" (1 : ℚ) 10 "" "d"

/-- Entity violating four field invariants (21-char id, empty name,
negative price, negative quantity): the constructor accepts it. -/
def c10bad : Product :=
  Product.make "123456789012345678901" "" "Cat" (-5 : ℚ) (-3) "" "d"

lemma digitsRevGo_eq : ∀ f1 f2 n : Nat, n ≤ f1 → n ≤ f2 → digitsRevGo f1 n = digitsRevGo f2 n := by
  intro f1
  induction f1 with
  | zero =>
    intro f2 n h1 _
    interval_cases n
    cases f2 <;> simp [digitsRevGo]
  | succ f ih =>
    intro f2 n h1 h2
    cases f2 with
    | zero =>
      interval_cases n
      simp [digitsRevGo]
    | succ f' =>
      by_cases hn : n = 0
      · subst hn; simp [digitsRevGo]
      · have hd : n / 10 ≤ f := by
          have := Nat.div_le_self n 10
          omega
        have hd' : n / 10 ≤ f' := by
          have h10 : n / 10 < n := Nat.div_lt_self (by omega) (by omega)
          omega
        simp only [digitsRevGo, if_neg hn]
        rw [ih f' (n / 10) hd hd']

lemma digitsRev_def (n : Nat) (h : n ≠ 0) : digitsRev n = n % 10 :: digitsRev (n / 10) := by
  unfold digitsRev
  cases hn : n with
  | zero => exact absurd hn h
  | succ m =>
    simp only [digitsRevGo, if_neg (by omega : ¬ (m + 1 = 0))]
    have : (m + 1) / 10 ≤ m := by
      have := Nat.div_lt_self (show 0 < m + 1 by omega) (show 1 < 10 by omega)
      omega
    rw [digitsRevGo_eq m ((m+1)/10) ((m+1)/10) this (le_refl _)]

lemma valRev_digitsRev (n : Nat) : valRev (digitsRev n) = n := by
  induction n using Nat.strong_induction_on with
  | _ n ih =>
    by_cases h : n = 0
    · subst h; rfl
    · rw [digitsRev_def n h]
      simp only [valRev]
      rw [ih (n / 10) (Nat.div_lt_self (by omega) (by omega))]
      omega

lemma digitsRev_lt : ∀ fuel n : Nat, ∀ d ∈ digitsRevGo fuel n, d < 10 := by
  intro fuel
  induction fuel with
  | zero => intro n d hd; simp [digitsRevGo] at hd
  | succ f ih =>
    intro n d hd
    by_cases hn : n = 0
    · subst hn; simp [digitsRevGo] at hd
    · simp only [digitsRevGo, if_neg hn, List.mem_cons] at hd
      rcases hd with h | h
      · subst h; exact Nat.mod_lt _ (by omega)
      · exact ih _ d h

lemma digitsRev_ne_nil (n : Nat) (h : n ≠ 0) : digitsRev n ≠ [] := by
  rw [digitsRev_def n h]; simp

lemma digitsRev_lt10 (n : Nat) : ∀ d ∈ digitsRev n, d < 10 := digitsRev_lt n n

lemma charVal_digitChar : ∀ d, d < 10 → charVal (digitChar10 d) = d := by decide

lemma isDigit_digitChar : ∀ d, d < 10 → (digitChar10 d).isDigit = true := by decide

lemma foldr_digits (L : List Nat) (h : ∀ d ∈ L, d < 10) :
    L.foldr (fun d y => y * 10 + charVal (digitChar10 d)) 0 = valRev L := by
  induction L with
  | nil => rfl
  | cons d t ih =>
    simp only [List.foldr_cons, valRev]
    rw [ih (fun x hx => h x (List.mem_cons_of_mem _ hx)),
      charVal_digitChar d (h d (List.mem_cons_self _ _))]
    omega

lemma digitsVal_natChars (n : Nat) : digitsVal (natChars n) = n := by
  unfold digitsVal natChars
  rw [List.foldl_reverse, List.foldr_map]
  rw [foldr_digits _ (digitsRev_lt10 n)]
  exact valRev_digitsRev n

lemma natChars_all_digits (n : Nat) : ∀ c ∈ natChars n, c.isDigit = true := by
  intro c hc
  unfold natChars at hc
  rw [List.mem_reverse, List.mem_map] at hc
  obtain ⟨d, hd, rfl⟩ := hc
  exact isDigit_digitChar d (digitsRev_lt10 n d hd)

lemma strOfNat_all_digits (n : Nat) : ∀ c ∈ (strOfNat n).data, c.isDigit = true := by
  intro c hc
  unfold strOfNat at hc
  by_cases h : n = 0
  · rw [if_pos h] at hc
    simp only [List.mem_singleton] at hc
    subst hc; decide
  · rw [if_neg h] at hc
    exact natChars_all_digits n c hc

lemma parseNatChars_strOfNat (n : Nat) : parseNatChars (strOfNat n).data = some n := by
  unfold strOfNat
  by_cases h : n = 0
  · subst h; rw [if_pos rfl]; decide
  · rw [if_neg h]
    show parseNatChars (natChars n) = some n
    unfold parseNatChars
    rw [if_pos]
    · rw [digitsVal_natChars]
    · constructor
      · unfold natChars
        simp only [ne_eq, List.reverse_eq_nil_iff, List.map_eq_nil_iff]
        exact digitsRev_ne_nil n h
      · rw [List.all_eq_true]
        exact fun c hc => natChars_all_digits n c hc

lemma strOfNat_data_ne_nil (n : Nat) : (strOfNat n).data ≠ [] := by
  unfold strOfNat
  by_cases h : n = 0
  · rw [if_pos h]; decide
  · rw [if_neg h]
    show natChars n ≠ []
    unfold natChars
    simp only [ne_eq, List.reverse_eq_nil_iff, List.map_eq_nil_iff]
    exact digitsRev_ne_nil n h

lemma isDigit_ne_dash {c : Char} (h : c.isDigit = true) : ¬ (c = '-') := by
  intro he; subst he; exact absurd h (by decide)

lemma isDigit_ne_plus {c : Char} (h : c.isDigit = true) : ¬ (c = '+') := by
  intro he; subst he; exact absurd h (by decide)

lemma isDigit_ne_slash {c : Char} (h : c.isDigit = true) : ¬ (c = '/') := by
  intro he; subst he; exact absurd h (by decide)

lemma parseInt_strOfInt (n : Int) : parseInt? (strOfInt n) = some n := by
  unfold parseInt? strOfInt
  by_cases hn : n < 0
  · rw [if_pos hn]
    rw [String.data_append]
    show parseIntChars ('-' :: (strOfNat n.natAbs).data) = some n
    show (if '-' = '-' then (parseNatChars (strOfNat n.natAbs).data).map (fun (m : Nat) => -(m : Int))
      else if '-' = '+' then (parseNatChars (strOfNat n.natAbs).data).map (fun (m : Nat) => (m : Int))
      else (parseNatChars ('-' :: (strOfNat n.natAbs).data)).map (fun (m : Nat) => (m : Int))) = some n
    rw [if_pos rfl, parseNatChars_strOfNat]
    simp only [Option.map_some']
    congr 1
    omega
  · rw [if_neg hn]
    cases hd : (strOfNat n.natAbs).data with
    | nil => exact absurd hd (strOfNat_data_ne_nil n.natAbs)
    | cons c rest =>
      have hcd : c.isDigit = true := by
        apply strOfNat_all_digits n.natAbs
        rw [hd]; exact List.mem_cons_self _ _
      show (if c = '-' then (parseNatChars rest).map (fun (m : Nat) => -(m : Int))
        else if c = '+' then (parseNatChars rest).map (fun (m : Nat) => (m : Int))
        else (parseNatChars (c :: rest)).map (fun (m : Nat) => (m : Int))) = some n
      rw [if_neg (isDigit_ne_dash hcd), if_neg (isDigit_ne_plus hcd)]
      rw [← hd, parseNatChars_strOfNat]
      simp only [Option.map_some']
      congr 1
      omega

lemma breakSlash_none (A : List Char) (h : ∀ c ∈ A, ¬ (c = '/')) :
    breakSlash A = (A, none) := by
  induction A with
  | nil => rfl
  | cons c t ih =>
    simp only [breakSlash, if_neg (h c (List.mem_cons_self _ _))]
    rw [ih (fun x hx => h x (List.mem_cons_of_mem _ hx))]

lemma breakSlash_some (A B : List Char) (h : ∀ c ∈ A, ¬ (c = '/')) :
    breakSlash (A ++ '/' :: B) = (A, some B) := by
  induction A with
  | nil => simp [breakSlash]
  | cons c t ih =>
    simp only [List.cons_append, breakSlash, List.append_eq, if_neg (h c (List.mem_cons_self _ _))]
    rw [ih (fun x hx => h x (List.mem_cons_of_mem _ hx))]

lemma strOfInt_no_slash (n : Int) : ∀ c ∈ (strOfInt n).data, ¬ (c = '/') := by
  intro c hc
  unfold strOfInt at hc
  by_cases hn : n < 0
  · rw [if_pos hn, String.data_append] at hc
    rcases List.mem_append.mp hc with h | h
    · simp only [List.mem_singleton] at h
      intro he; rw [he] at h; exact absurd h (by decide)
    · exact isDigit_ne_slash (strOfNat_all_digits _ c h)
  · rw [if_neg hn] at hc
    exact isDigit_ne_slash (strOfNat_all_digits _ c hc)

lemma parseRat_strOfRat (q : ℚ) : parseRat? (strOfRat q) = some q := by
  unfold parseRat? strOfRat
  by_cases hq : q.den = 1
  · rw [if_pos hq]
    unfold parseRatChars
    rw [breakSlash_none _ (strOfInt_no_slash q.num)]
    show (parseIntChars (strOfInt q.num).data).map (fun (n : Int) => (n : ℚ)) = some q
    rw [show parseIntChars (strOfInt q.num).data = parseInt? (strOfInt q.num) from rfl]
    rw [parseInt_strOfInt]
    simp only [Option.map_some']
    congr 1
    exact (Rat.den_eq_one_iff q).mp hq
  · rw [if_neg hq]
    unfold parseRatChars
    have hdata : (strOfInt q.num ++ "/" ++ strOfNat q.den).data
        = (strOfInt q.num).data ++ '/' :: (strOfNat q.den).data := by
      rw [String.data_append, String.data_append]
      simp
    rw [hdata, breakSlash_some _ _ (strOfInt_no_slash q.num)]
    show (match parseIntChars (strOfInt q.num).data, parseNatChars (strOfNat q.den).data with
      | some n, some d => if d = 0 then none else some (mkRat n d)
      | _, _ => none) = some q
    rw [show parseIntChars (strOfInt q.num).data = parseInt? (strOfInt q.num) from rfl]
    rw [parseInt_strOfInt, parseNatChars_strOfNat]
    show (if q.den = 0 then none else some (mkRat q.num q.den)) = some q
    rw [if_neg q.den_nz, Rat.mkRat_self]

lemma parseRow_rowOf (d : String) (p : Product) :
    ProductRepository.parseRow d ProductRepository.PRODUCT_FIELDS (ProductRepository.rowOf p)
      = some p := by
  show Product.ofStrings p.product_id p.name p.category (strOfRat p.price)
    (strOfInt p.quantity) p.supplier p.date_added = some p
  unfold Product.ofStrings
  rw [parseRat_strOfRat, parseInt_strOfInt]
  rfl

lemma dictSet_append (r : Repo) (k : String) (v : Product)
    (h : ∀ a ∈ r, ¬ (a.1 = k)) : dictSet r k v = r ++ [(k, v)] := by
  unfold dictSet
  rw [if_neg]
  simp only [List.any_eq_true, not_exists, not_and]
  intro a ha
  simp only [beq_iff_eq]
  exact fun hh => h a ha hh

lemma loadRows_append (d : String) :
    ∀ (ps : List (String × Product)) (acc : Repo),
    (∀ kp ∈ ps, kp.1 = kp.2.product_id) →
    (ps.map Prod.fst).Nodup →
    (∀ kp ∈ ps, ∀ a ∈ acc, ¬ (a.1 = kp.1)) →
    ProductRepository.loadRows d ProductRepository.PRODUCT_FIELDS
      (ps.map (fun kp => ProductRepository.rowOf kp.2)) acc = (Except.ok (), acc ++ ps) := by
  intro ps
  induction ps with
  | nil => intro acc _ _ _; simp [ProductRepository.loadRows]
  | cons kp t ih =>
    intro acc hkc hnd hdis
    obtain ⟨k, p⟩ := kp
    have hk : k = p.product_id := hkc (k, p) (List.mem_cons_self _ _)
    simp only [List.map_cons, ProductRepository.loadRows, parseRow_rowOf]
    have hset : dictSet acc p.product_id p = acc ++ [(k, p)] := by
      rw [← hk]
      exact dictSet_append acc k p
        (fun a ha => hdis (k, p) (List.mem_cons_self _ _) a ha)
    rw [hset]
    have hnd' : (t.map Prod.fst).Nodup := (List.nodup_cons.mp hnd).2
    have hknot : k ∉ t.map Prod.fst := (List.nodup_cons.mp hnd).1
    rw [ih (acc ++ [(k, p)])
      (fun x hx => hkc x (List.mem_cons_of_mem _ hx)) hnd'
      (fun x hx a ha => by
        rcases List.mem_append.mp ha with h1 | h1
        · exact hdis x (List.mem_cons_of_mem _ hx) a h1
        · simp only [List.mem_singleton] at h1
          subst h1
          intro he
          apply hknot
          have hx1 : x.1 ∈ t.map Prod.fst := List.mem_map_of_mem Prod.fst hx
          rw [← he] at hx1
          exact hx1)]
    simp

lemma foldl_step_congr : ∀ (l : List (String × Product)) (f g : Int → (String × Product) → Int),
    (∀ a x, f a x = g a x) → ∀ a, l.foldl f a = l.foldl g a := by
  intro l f g h
  induction l with
  | nil => intro a; rfl
  | cons x t ih =>
    intro a
    simp only [List.foldl_cons]
    rw [h a x]
    exact ih _

lemma get_next_id_eq (r : Repo) :
    ProductRepository.get_next_id r = strOfInt (maxNumericId r + 1) := by
  unfold ProductRepository.get_next_id maxNumericId
  show strOfInt (r.foldl (fun m kv => match parseInt? kv.1 with
    | some num => if num > m then num else m
    | none => m) 0 + 1) = _
  rw [foldl_step_congr r
    (fun m kv => match parseInt? kv.1 with
      | some num => if num > m then num else m
      | none => m)
    (fun m kp => match parseInt? kp.1 with
      | some n => max m n
      | none => m)
    (by
      intro a x
      show (match parseInt? x.1 with
        | some num => if num > a then num else a
        | none => a)
        = (match parseInt? x.1 with
        | some n => max a n
        | none => a)
      cases hp : parseInt? x.1 with
      | none => rfl
      | some n =>
        show (if n > a then n else a) = max a n
        by_cases h : n > a
        · rw [if_pos h]; omega
        · rw [if_neg h]; omega)
    0]

lemma foldl_add_quantity (l : List Product) (a : Int) :
    l.foldl (fun s p => s + p.quantity) a = a + (l.map Product.quantity).sum := by
  induction l generalizing a with
  | nil => simp
  | cons p t ih =>
    simp only [List.foldl_cons, List.map_cons, List.sum_cons]
    rw [ih]
    omega

lemma foldl_add_value (l : List Product) (a : ℚ) :
    l.foldl (fun s p => s + p.get_total_value) a = a + (l.map Product.get_total_value).sum := by
  induction l generalizing a with
  | nil => simp
  | cons p t ih =>
    simp only [List.foldl_cons, List.map_cons, List.sum_cons]
    rw [ih]
    ring

lemma countKey_mapBump (m : List (String × Nat)) (c0 c : String) :
    countKey (m.map (fun kv => if kv.1 == c0 then (kv.1, kv.2 + 1) else kv)) c
      = if m.any (fun kv => kv.1 == c) && (c0 == c) then countKey m c + 1 else countKey m c := by
  induction m with
  | nil => simp [countKey]
  | cons kv t ih =>
    by_cases hc : kv.1 = c
    · have hb : (kv.1 == c) = true := beq_iff_eq.mpr hc
      by_cases h0 : kv.1 = c0
      · have hb0 : (kv.1 == c0) = true := beq_iff_eq.mpr h0
        have h0c : (c0 == c) = true := beq_iff_eq.mpr (by rw [← h0, hc])
        simp [countKey, List.find?, hb, hb0, h0c, List.any_cons]
      · have hb0 : (kv.1 == c0) = false := beq_eq_false_iff_ne.mpr h0
        have h0c : (c0 == c) = false := by
          apply beq_eq_false_iff_ne.mpr
          intro he
          exact h0 (by rw [hc, ← he])
        simp [countKey, List.find?, hb, hb0, h0c, List.any_cons]
    · have hb : (kv.1 == c) = false := beq_eq_false_iff_ne.mpr hc
      by_cases h0 : kv.1 = c0
      · have hb0 : (kv.1 == c0) = true := beq_iff_eq.mpr h0
        simp only [List.map_cons, if_pos hb0]
        simp only [countKey, List.find?, hb, List.any_cons] at ih ⊢
        simpa [hb] using ih
      · have hb0 : (kv.1 == c0) = false := beq_eq_false_iff_ne.mpr h0
        simp only [List.map_cons, if_neg (by simp [hb0] : ¬ (kv.1 == c0) = true)]
        simp only [countKey, List.find?, hb, List.any_cons] at ih ⊢
        simpa [hb] using ih

lemma countKey_bumpCategory (m : List (String × Nat)) (c0 c : String) :
    countKey (ProductService.bumpCategory m c0) c
      = countKey m c + (if c0 == c then 1 else 0) := by
  unfold ProductService.bumpCategory
  by_cases hany : m.any (fun kv => kv.1 == c0) = true
  · rw [if_pos hany, countKey_mapBump]
    by_cases h0c : c0 = c
    · have hb : (c0 == c) = true := beq_iff_eq.mpr h0c
      have hmc : m.any (fun kv => kv.1 == c) = true := by rw [← h0c]; exact hany
      simp [hb, hmc]
    · have hb : (c0 == c) = false := beq_eq_false_iff_ne.mpr h0c
      simp [hb]
  · rw [if_neg hany]
    have hnone : ∀ x ∈ m, ¬ (x.1 == c0) = true := by
      intro x hx hb
      exact hany (List.any_eq_true.mpr ⟨x, hx, hb⟩)
    by_cases h0c : c0 = c
    · subst h0c
      have hfind : m.find? (fun kv => kv.1 == c0) = none :=
        List.find?_eq_none.mpr hnone
      have hck : countKey m c0 = 0 := by
        unfold countKey
        rw [hfind]
        rfl
      rw [hck]
      unfold countKey
      rw [List.find?_append, hfind]
      simp [List.find?]
  -- c0 ≠ c case
    · have hb : (c0 == c) = false := beq_eq_false_iff_ne.mpr h0c
      unfold countKey
      rw [List.find?_append]
      cases hfind : m.find? (fun kv => kv.1 == c) with
      | some kv => simp [Option.or_some, hb]
      | none =>
        simp only [Option.none_or]
        simp [List.find?, hb]

lemma countKey_fold (l : List Product) :
    ∀ (m : List (String × Nat)) (c : String),
    countKey (l.foldl (fun acc p => ProductService.bumpCategory acc p.category) m) c
      = countKey m c + (l.filter (fun p => p.category == c)).length := by
  induction l with
  | nil => intro m c; simp
  | cons p t ih =>
    intro m c
    simp only [List.foldl_cons]
    rw [ih]
    rw [countKey_bumpCategory]
    by_cases hpc : p.category = c
    · have hb : (p.category == c) = true := beq_iff_eq.mpr hpc
      simp [List.filter, hb]
      omega
    · have hb : (p.category == c) = false := beq_eq_false_iff_ne.mpr hpc
      simp [List.filter, hb]

lemma keyConsistent_dictSet (r : Repo) (v : Product)
    (h : KeyConsistent r) : KeyConsistent (dictSet r v.product_id v) := by
  unfold dictSet
  by_cases hany : r.any (fun kv => kv.1 == v.product_id) = true
  · rw [if_pos hany]
    intro kp hkp
    rw [List.mem_map] at hkp
    obtain ⟨a, ha, heq⟩ := hkp
    by_cases hk : (a.1 == v.product_id) = true
    · rw [if_pos hk] at heq
      subst heq
      exact beq_iff_eq.mp hk
    · rw [if_neg hk] at heq
      subst heq
      exact h a ha
  · rw [if_neg hany]
    intro kp hkp
    rcases List.mem_append.mp hkp with h1 | h1
    · exact h kp h1
    · simp only [List.mem_singleton] at h1
      subst h1
      rfl

lemma add_ok_eq {r r2 : Repo} {p : Product}
    (h : ProductRepository.add r p = Except.ok r2) :
    r2 = dictSet r p.product_id p := by
  unfold ProductRepository.add at h
  split at h
  · exact absurd h (by simp)
  · simp only [] at h
    split at h
    · injection h with h2
      exact h2.symm
    · exact absurd h (by simp)

lemma update_ok_eq {r r2 : Repo} {p : Product}
    (h : ProductRepository.update r p = Except.ok r2) :
    r2 = dictSet r p.product_id p := by
  unfold ProductRepository.update at h
  split at h
  · simp only [] at h
    split at h
    · injection h with h2
      exact h2.symm
    · exact absurd h (by simp)
  · exact absurd h (by simp)

lemma delete_ok_eq {r r2 : Repo} {id : String}
    (h : ProductRepository.delete r id = Except.ok r2) :
    r2 = r.filter (fun kv => !(kv.1 == id)) := by
  unfold ProductRepository.delete at h
  split at h
  · injection h with h2
    exact h2.symm
  · exact absurd h (by simp)

lemma keyConsistent_loadRows (d : String) (hdr : List String) :
    ∀ (rows : List (List String)) (acc : Repo), KeyConsistent acc →
      KeyConsistent (ProductRepository.loadRows d hdr rows acc).2 := by
  intro rows
  induction rows with
  | nil => intro acc h; exact h
  | cons cells rest ih =>
    intro acc h
    simp only [ProductRepository.loadRows]
    cases hp : ProductRepository.parseRow d hdr cells with
    | some p => exact ih (dictSet acc p.product_id p) (keyConsistent_dictSet acc p h)
    | none => exact h

/-- Claim C1: `save` followed by `load` round-trips the collection: an
empty repository reproduces an empty collection, and a non-empty
repository (keys matching ids, keys unique — true of every dict state)
reproduces every stored product with every field equal to the original,
price and quantity losslessly and `date_added` verbatim: the resulting
store equals the saved one. -/
theorem claim_C1_save_load_roundtrip (r r0 : Repo) (d : String)
    (hkeys : ∀ kp ∈ r, kp.1 = kp.2.product_id)
    (hnodup : (r.map Prod.fst).Nodup) :
    ProductRepository.load (some (ProductRepository.save r)) d r0 = (Except.ok (), r) := by
  cases r with
  | nil => rfl
  | cons hd tl =>
    unfold ProductRepository.save
    rw [if_neg (by simp : ¬ (((hd :: tl : Repo)).isEmpty = true))]
    show ProductRepository.loadRows d ProductRepository.PRODUCT_FIELDS
      ((ProductRepository.get_all (hd :: tl)).map ProductRepository.rowOf) [] = (Except.ok (), hd :: tl)
    unfold ProductRepository.get_all
    rw [List.map_map]
    show ProductRepository.loadRows d ProductRepository.PRODUCT_FIELDS
      ((hd :: tl).map (fun kp => ProductRepository.rowOf kp.2)) [] = (Except.ok (), hd :: tl)
    rw [loadRows_append d (hd :: tl) [] hkeys hnodup (fun x _ a ha => absurd ha (List.not_mem_nil a))]
    rw [List.nil_append]

/-- Witness for C1 at a concrete one-product repository. -/
theorem claim_C1_save_load_roundtrip_witness :
    ProductRepository.load (some (ProductRepository.save [("1", wProd)])) "now" []
      = (Except.ok (), [("1", wProd)]) :=
  claim_C1_save_load_roundtrip [("1", wProd)] [] "now" (by decide) (by decide)

/-- Claim C3: `get_next_id` returns, as a string, one plus the maximum
over all stored ids that parse as integers (0 if none parses), recomputed
from the current id set: "1" on empty, "8" for ids 3 and 7, still "8"
with non-numeric "abc" added, and after deleting the highest id "8" from
a store where the next id was "9", "8" is returned again. -/
theorem claim_C3_get_next_id :
    (∀ r : Repo, ProductRepository.get_next_id r = strOfInt (maxNumericId r + 1))
    ∧ ProductRepository.get_next_id [] = "1"
    ∧ ProductRepository.get_next_id [("3", nid3), ("7", nid7)] = "8"
    ∧ ProductRepository.get_next_id [("3", nid3), ("7", nid7), ("abc", nidAbc)] = "8"
    ∧ ProductRepository.get_next_id [("3", nid3), ("7", nid7), ("8", nid8)] = "9"
    ∧ ProductRepository.delete [("3", nid3), ("7", nid7), ("8", nid8)] "8"
        = Except.ok [("3", nid3), ("7", nid7)]
    ∧ ProductRepository.get_next_id [("3", nid3), ("7", nid7)] = "8" :=
  ⟨get_next_id_eq, by decide, by decide, by decide, by decide, by decide, by decide⟩

/-- Claim C6: `adjust_quantity delta` computes `quantity + delta`, fails
with the "Insufficient quantity" error exactly when the result would be
negative (leaving the entity as it was), and otherwise applies the result
through the normal quantity setter; quantity 5 with delta −6 fails, and
with delta −5 succeeds leaving quantity 0. -/
theorem claim_C6_adjust_quantity :
    (∀ (p : Product) (a : Int),
      p.adjust_quantity a
        = (if p.quantity + a < 0 then Except.error "Insufficient quantity"
           else Except.ok { p with quantity := p.quantity + a })
      ∧ p.adjust_quantity a
        = (if p.quantity + a < 0 then Except.error "Insufficient quantity"
           else p.setQuantity (p.quantity + a)))
    ∧ c6p.adjust_quantity (-6) = Except.error "Insufficient quantity"
    ∧ c6p.adjust_quantity (-5) = Except.ok { c6p with quantity := 0 } := by
  refine ⟨fun p a => ⟨?_, rfl⟩, by decide, by decide⟩
  unfold Product.adjust_quantity Product.setQuantity
  by_cases h : p.quantity + a < 0
  · rw [if_pos h, if_pos h]
  · rw [if_neg h, if_neg h, if_neg h]

/-- Claim C7: `save` writes no header at all for an empty collection
(the file is empty), and for a non-empty collection writes one header row
followed by one row per product; the output depends on the collection
alone, i.e. any previous file content is overwritten. -/
theorem claim_C7_save_format :
    (∀ r : Repo, ProductRepository.save r
      = (if r.isEmpty then []
         else ProductRepository.PRODUCT_FIELDS ::
           (ProductRepository.get_all r).map ProductRepository.rowOf))
    ∧ (∀ r : Repo, (ProductRepository.save r).length
      = (if r.isEmpty then 0 else ProductRepository.count r + 1))
    ∧ ProductRepository.save [] = [] := by
  refine ⟨fun r => rfl, fun r => ?_, rfl⟩
  cases r with
  | nil => rfl
  | cons hd tl =>
    simp [ProductRepository.save, ProductRepository.count, ProductRepository.get_all]

/-- Claim C8: `is_low_stock threshold` is true exactly when the quantity
is strictly below the threshold (callers pass the default 10): true at
quantity 9, false at quantity 10. -/
theorem claim_C8_is_low_stock :
    (∀ (p : Product) (t : Int), p.is_low_stock t = decide (p.quantity < t))
    ∧ c8p9.is_low_stock 10 = true
    ∧ c8p10.is_low_stock 10 = false :=
  ⟨fun p t => rfl, by decide, by decide⟩

/-- Counterexample to claim C2: a file whose second data row has the
unparseable quantity "abc" makes `load` fail with the storage error but
leaves the first row's product in the in-memory collection (partially
populated); moreover `load` on a missing file does not clear a non-empty
collection. -/
theorem claim_C2_counterexample :
    ProductRepository.load (some cexFile) "now" []
      = (Except.error "Error loading data", [("1", c4A)])
    ∧ (decide (([("1", c4A)] : Repo) = [])) = false
    ∧ ProductRepository.load none "now" [("1", c4A)] = (Except.ok (), [("1", c4A)]) :=
  ⟨by decide, by decide, by decide⟩

/-- Claim C2 as amended: `load` on a missing file succeeds leaving the
in-memory collection untouched; on an existing file it starts from a
cleared collection and parses the data rows in order, inserting each
parsed product under its id; the first row that fails to parse aborts
the rest of the load with the storage error, but the rows already parsed
remain in the collection. -/
theorem claim_C2_load_behaviour :
    (∀ (d : String) (r : Repo), ProductRepository.load none d r = (Except.ok (), r))
    ∧ (∀ (d : String) (r : Repo), ProductRepository.load (some []) d r = (Except.ok (), []))
    ∧ (∀ (d : String) (r : Repo) (hdr : List String) (rows : List (List String)),
        ProductRepository.load (some (hdr :: rows)) d r
          = ProductRepository.loadRows d hdr rows [])
    ∧ (∀ (d : String) (hdr cells : List String) (rows : List (List String))
        (acc : Repo) (p : Product),
        ProductRepository.parseRow d hdr cells = some p →
        ProductRepository.loadRows d hdr (cells :: rows) acc
          = ProductRepository.loadRows d hdr rows (dictSet acc p.product_id p))
    ∧ (∀ (d : String) (hdr cells : List String) (rows : List (List String)) (acc : Repo),
        ProductRepository.parseRow d hdr cells = none →
        ProductRepository.loadRows d hdr (cells :: rows) acc
          = (Except.error "Error loading data", acc)) := by
  refine ⟨fun d r => rfl, fun d r => rfl, fun d r hdr rows => rfl, ?_, ?_⟩
  · intro d hdr cells rows acc p h
    simp only [ProductRepository.loadRows]
    rw [h]
  · intro d hdr cells rows acc h
    simp only [ProductRepository.loadRows]
    rw [h]

/-- Witness for the amended C2 at concrete rows: a parsing row steps the
accumulator, an unparseable row aborts with the storage error. -/
theorem claim_C2_load_behaviour_witness :
    ProductRepository.loadRows "now" ProductRepository.PRODUCT_FIELDS
      [["2", "Bolt", "Parts", "3", "4", "S", "2024-01-02 11:00:00"]] []
      = ProductRepository.loadRows "now" ProductRepository.PRODUCT_FIELDS []
          (dictSet [] wProd2.product_id wProd2)
    ∧ ProductRepository.loadRows "now" ProductRepository.PRODUCT_FIELDS [["x"]] []
      = (Except.error "Error loading data", []) :=
  ⟨claim_C2_load_behaviour.2.2.2.1 "now" ProductRepository.PRODUCT_FIELDS
      ["2", "Bolt", "Parts", "3", "4", "S", "2024-01-02 11:00:00"] [] [] wProd2 (by decide),
   claim_C2_load_behaviour.2.2.2.2 "now" ProductRepository.PRODUCT_FIELDS ["x"] [] [] (by decide)⟩

/-- Counterexample to claim C4: an update carrying a valid new name and
an invalid negative price fails with the business error, yet the stored
entity's name has changed from "A" to "X" — the collection is not as it
was before the call. -/
theorem claim_C4_counterexample :
    ProductService.update_product c4r "1" c4d
      = (Except.error "Failed to update product: Price cannot be negative", [("1", c4A2)])
    ∧ c4A.name = "A"
    ∧ c4A2.name = "X"
    ∧ (decide (([("1", c4A2)] : Repo) = c4r)) = false :=
  ⟨by decide, by decide, by decide, by decide⟩

/-- Claim C4 as amended: duplicate-id adds, invalid-entity adds, deletes
and updates of missing ids, and insufficient-stock adjustments each abort
only the requested operation and leave the collection unchanged (the
duplicate add leaves the stored entity in place); an update failing on an
invalid field, however, keeps the fields applied before the failure: the
store afterwards holds the partially-updated entity. -/
theorem claim_C4_domain_violations :
    (∀ (r : Repo) (p : Product), ProductRepository.existsId r p.product_id = true →
      ProductRepository.add r p
        = Except.error ("Product with ID " ++ p.product_id ++ " already exists"))
    ∧ (∀ (r : Repo) (p : Product) (e : String), ProductRepository.add r p = Except.error e →
      ProductService.create_product r p
        = (Except.error ("Failed to create product: " ++ e), r))
    ∧ (∀ (r : Repo) (id e : String), ProductRepository.delete r id = Except.error e →
      ProductService.delete_product r id
        = (Except.error ("Failed to delete product: " ++ e), r))
    ∧ (∀ (r : Repo) (id : String) (dt : UpdateData),
        ProductRepository.get_by_id r id = none →
      ProductService.update_product r id dt
        = (Except.error ("Product with ID " ++ id ++ " not found"), r))
    ∧ (∀ (r : Repo) (id : String) (a : Int), ProductRepository.get_by_id r id = none →
      ProductService.adjust_stock r id a
        = (Except.error ("Product with ID " ++ id ++ " not found"), r))
    ∧ (∀ (r : Repo) (id : String) (p : Product) (a : Int),
        ProductRepository.get_by_id r id = some p → p.quantity + a < 0 →
      ProductService.adjust_stock r id a
        = (Except.error "Failed to adjust stock: Insufficient quantity", r))
    ∧ (∀ (r : Repo) (id : String) (p : Product) (dt : UpdateData) (e : String) (pa : Product),
        ProductRepository.get_by_id r id = some p →
        p.update_from_dict dt = (Except.error e, pa) →
      ProductService.update_product r id dt
        = (Except.error ("Failed to update product: " ++ e), dictSet r id pa)) := by
  refine ⟨?_, ?_, ?_, ?_, ?_, ?_, ?_⟩
  · intro r p h
    unfold ProductRepository.add
    rw [if_pos h]
  · intro r p e h
    unfold ProductService.create_product
    rw [h]
  · intro r id e h
    unfold ProductService.delete_product
    rw [h]
  · intro r id dt h
    unfold ProductService.update_product
    rw [h]
  · intro r id a h
    unfold ProductService.adjust_stock
    rw [h]
  · intro r id p a h1 h2
    unfold ProductService.adjust_stock
    rw [h1]
    have hq : p.adjust_quantity a = Except.error "Insufficient quantity" := by
      show (if p.quantity + a < 0 then Except.error "Insufficient quantity"
        else p.setQuantity (p.quantity + a)) = Except.error "Insufficient quantity"
      rw [if_pos h2]
    show (match p.adjust_quantity a with
      | Except.error e => (Except.error ("Failed to adjust stock: " ++ e), r)
      | Except.ok p2 =>
        let rAliased := dictSet r id p2
        match ProductRepository.update rAliased p2 with
        | Except.error e => (Except.error ("Failed to adjust stock: " ++ e), rAliased)
        | Except.ok r2 => (Except.ok p2, r2))
      = (Except.error "Failed to adjust stock: Insufficient quantity", r)
    rw [hq]
    rfl
  · intro r id p dt e pa h1 h2
    unfold ProductService.update_product
    rw [h1]
    show (match p.update_from_dict dt with
      | (Except.error e, pAfter) =>
        (Except.error ("Failed to update product: " ++ e), dictSet r id pAfter)
      | (Except.ok p2, _) =>
        let rAliased := dictSet r id p2
        match ProductRepository.update rAliased p2 with
        | Except.error e => (Except.error ("Failed to update product: " ++ e), rAliased)
        | Except.ok r2 => (Except.ok p2, r2))
      = (Except.error ("Failed to update product: " ++ e), dictSet r id pa)
    rw [h2]

/-- Witness for the amended C4: concrete duplicate add and concrete
insufficient-stock adjustment. -/
theorem claim_C4_domain_violations_witness :
    ProductRepository.add c4r c4A
      = Except.error ("Product with ID " ++ c4A.product_id ++ " already exists")
    ∧ ProductService.adjust_stock c4r "1" (-2)
      = (Except.error "Failed to adjust stock: Insufficient quantity", c4r) :=
  ⟨claim_C4_domain_violations.1 c4r c4A (by decide),
   claim_C4_domain_violations.2.2.2.2.2.1 c4r "1" c4A (-2) (by decide) (by decide)⟩

lemma get_statistics_of_empty (r : Repo) (h : (ProductRepository.get_all r).isEmpty = true) :
    ProductService.get_statistics r
      = { total_products := 0, total_quantity := 0, total_value := 0,
          categories := [], low_stock_count := 0, low_stock_products := none } := by
  unfold ProductService.get_statistics
  simp only []
  rw [if_pos h]

lemma get_statistics_of_nonempty (r : Repo)
    (h : (ProductRepository.get_all r).isEmpty = false) :
    ProductService.get_statistics r
      = { total_products := (ProductRepository.get_all r).length,
          total_quantity :=
            (ProductRepository.get_all r).foldl (fun a p => a + p.quantity) 0,
          total_value :=
            (ProductRepository.get_all r).foldl (fun a p => a + p.get_total_value) 0,
          categories := (ProductRepository.get_all r).foldl
            (fun m p => ProductService.bumpCategory m p.category) [],
          low_stock_count := (ProductRepository.find_low_stock r 10).length,
          low_stock_products := some (ProductRepository.find_low_stock r 10) } := by
  unfold ProductService.get_statistics
  simp only []
  rw [if_neg (by simp [h])]

/-- Counterexample to claim C5: on the empty collection the statistics
record has no low-stock product list at all (the Python dict omits the
`low_stock_products` key in that branch), rather than containing an
empty list. -/
theorem claim_C5_counterexample :
    (ProductService.get_statistics ([] : Repo)).low_stock_products = none
    ∧ (decide ((ProductService.get_statistics ([] : Repo)).low_stock_products
        = some [])) = false :=
  ⟨by decide, by decide⟩

/-- Claim C5 as amended: `get_statistics` reports the product count, the
sum of quantities, the sum of total values, the per-category entity
counts, the low-stock count at threshold 10 and (only when the
collection is non-empty) the list of low-stock entities; on the empty
collection every numeric component is zero and the category map empty,
but the low-stock list entry is absent; on categories A, A, B with
quantities 3, 20, 1 it reports 3 products, total quantity 24, counts
A ↦ 2 and B ↦ 1 and low-stock count 2. -/
theorem claim_C5_statistics :
    (∀ r : Repo,
      (ProductService.get_statistics r).total_products
          = (ProductRepository.get_all r).length
      ∧ (ProductService.get_statistics r).total_quantity
          = ((ProductRepository.get_all r).map Product.quantity).sum
      ∧ (ProductService.get_statistics r).total_value
          = ((ProductRepository.get_all r).map Product.get_total_value).sum
      ∧ (∀ c : String, countKey (ProductService.get_statistics r).categories c
          = ((ProductRepository.get_all r).filter (fun p => p.category == c)).length)
      ∧ (ProductService.get_statistics r).low_stock_count
          = (ProductRepository.find_low_stock r 10).length
      ∧ (ProductService.get_statistics r).low_stock_products
          = (if (ProductRepository.get_all r).isEmpty then none
             else some (ProductRepository.find_low_stock r 10)))
    ∧ (ProductService.get_statistics statR).total_products = 3
    ∧ (ProductService.get_statistics statR).total_quantity = 24
    ∧ countKey (ProductService.get_statistics statR).categories "A" = 2
    ∧ countKey (ProductService.get_statistics statR).categories "B" = 1
    ∧ (ProductService.get_statistics statR).low_stock_count = 2 := by
  refine ⟨fun r => ?_, by decide, by decide, by decide, by decide, by decide⟩
  by_cases hemp : (ProductRepository.get_all r).isEmpty = true
  · have hnil : ProductRepository.get_all r = [] := by
      cases hg : ProductRepository.get_all r with
      | nil => rfl
      | cons a t => rw [hg] at hemp; exact absurd hemp (by simp)
    rw [get_statistics_of_empty r hemp, hnil]
    refine ⟨rfl, rfl, rfl, fun c => rfl, ?_, ?_⟩
    · show 0 = (ProductRepository.find_low_stock r 10).length
      unfold ProductRepository.find_low_stock
      rw [hnil]
      rfl
    · rfl
  · have hemp' : (ProductRepository.get_all r).isEmpty = false := by
      cases hg : (ProductRepository.get_all r).isEmpty with
      | false => rfl
      | true => exact absurd hg hemp
    rw [get_statistics_of_nonempty r hemp']
    refine ⟨rfl, ?_, ?_, fun c => ?_, rfl, ?_⟩
    · rw [foldl_add_quantity]
      show (0 : Int) + ((ProductRepository.get_all r).map Product.quantity).sum
        = ((ProductRepository.get_all r).map Product.quantity).sum
      omega
    · rw [foldl_add_value]
      show (0 : ℚ) + ((ProductRepository.get_all r).map Product.get_total_value).sum
        = ((ProductRepository.get_all r).map Product.get_total_value).sum
      ring
    · rw [countKey_fold]
      show 0 + ((ProductRepository.get_all r).filter (fun p => p.category == c)).length
        = ((ProductRepository.get_all r).filter (fun p => p.category == c)).length
      omega
    · rw [hemp']
      rfl

/-- Claim C9: in every repository state reachable through `add`,
`update`, `delete`, `load` and `clear`, each stored product is keyed by
its own `product_id` (and `product_id` has no setter, so no modelled
operation rewrites it). -/
theorem claim_C9_key_invariant (r : Repo) (h : Reachable r) : KeyConsistent r := by
  induction h with
  | empty => intro kp hkp; exact absurd hkp (List.not_mem_nil kp)
  | add_ok r r2 p _ hok ih =>
    rw [add_ok_eq hok]
    exact keyConsistent_dictSet r p ih
  | update_ok r r2 p _ hok ih =>
    rw [update_ok_eq hok]
    exact keyConsistent_dictSet r p ih
  | delete_ok r r2 id _ hok ih =>
    rw [delete_ok_eq hok]
    intro kp hkp
    exact ih kp (List.mem_of_mem_filter hkp)
  | load_any r file d _ ih =>
    cases file with
    | none => exact ih
    | some f =>
      cases f with
      | nil => intro kp hkp; exact absurd hkp (List.not_mem_nil kp)
      | cons hdr rows =>
        exact keyConsistent_loadRows d hdr rows []
          (fun kp hkp => absurd hkp (List.not_mem_nil kp))
  | clear_any r _ _ =>
    intro kp hkp
    exact absurd hkp (List.not_mem_nil kp)

/-- Witness for C9 at a store reached by a concrete `add`. -/
theorem claim_C9_key_invariant_witness : KeyConsistent [("1", c4A)] :=
  claim_C9_key_invariant [("1", c4A)]
    (Reachable.add_ok [] [("1", c4A)] c4A Reachable.empty (by decide))

/-- Claim C10: construction coerces price and quantity but enforces no
field invariant: an entity with a 21-character id, empty name, negative
price and negative quantity is constructed, carrying the invalid values;
it is rejected later, by `validate` at `add` time or by the individual
setters; and string-argument construction (the `load` path) fails exactly
when the price or quantity text does not parse. -/
theorem claim_C10_construction :
    (∀ pid nm cat priceS qtyS sup dn : String,
      (Product.ofStrings pid nm cat priceS qtyS sup dn).isSome
        = ((parseRat? priceS).isSome && (parseInt? qtyS).isSome))
    ∧ c10bad.price = -5
    ∧ c10bad.quantity = -3
    ∧ c10bad.product_id.length = 21
    ∧ c10bad.name = ""
    ∧ c10bad.validate = (false,
        ["Product ID too long (max 20 characters)", "Product name cannot be empty",
         "Price cannot be negative", "Quantity cannot be negative"])
    ∧ (∀ r : Repo, (ProductRepository.add r c10bad).isOk = false)
    ∧ (∀ p : Product, p.setName "" = Except.error "Product name cannot be empty")
    ∧ (∀ p : Product, p.setPrice (-1) = Except.error "Price cannot be negative")
    ∧ (∀ p : Product, p.setQuantity (-1) = Except.error "Quantity cannot be negative")
    ∧ Product.ofStrings "1" "N" "C" "abc" "5" "" "d" = none
    ∧ Product.ofStrings "1" "N" "C" "3" "x" "" "d" = none := by
  refine ⟨?_, by decide, by decide, by decide, by decide, by decide, ?_,
    fun p => rfl, fun p => rfl, fun p => rfl, by decide, by decide⟩
  · intro pid nm cat priceS qtyS sup dn
    unfold Product.ofStrings
    cases hp : parseRat? priceS <;> cases hq : parseInt? qtyS <;> rfl
  · intro r
    unfold ProductRepository.add
    by_cases hex : ProductRepository.existsId r c10bad.product_id = true
    · rw [if_pos hex]
      rfl
    · rw [if_neg hex]
      show (if (c10bad.validate).1 = true
        then Except.ok (dictSet r c10bad.product_id c10bad)
        else Except.error ("Invalid product data: "
          ++ String.intercalate ", " (c10bad.validate).2)).isOk = false
      rw [if_neg (by decide : ¬ ((c10bad.validate).1 = true))]
      rfl

end ShopModel
